import Mathlib

/-!
Shallow embedding of the synthetic e-commerce data generator
(`src/data_generator.py`, class `EcommerceDataGenerator`).

Modelling conventions:
* Money is `ℚ`; Python `round(x, 2)` / `round(x, 1)` become `round2` / `round1`
  (round to nearest multiple of 1/100 resp. 1/10).
* Dates are absolute day indices (`Nat`). Consecutive calendar days increment
  the index by 1; Python `date.weekday()` (Monday = 0 … Sunday = 6) becomes
  `day % 7`, and the calendar month of a day is an explicit parameter
  `monthOf : Nat → Nat` (the Gregorian calendar mapping, irrelevant to the
  claims beyond being some fixed function).
* All pseudo-random draws (`np.random.*`, `random.*`) are explicit input
  streams.  A draw from a finite range `[0, n)` is modelled as `r % n` for an
  arbitrary stream value `r`; `np.random.randint(0, 0)` raising `ValueError`
  is modelled by an `Except` error.  The streams stand for the values the
  seeded PRNGs would produce.
* String-valued columns that no claim mentions (names, SKU, supplier,
  payment method, channel, …) are omitted from the records.
-/

set_option maxRecDepth 4000

attribute [local semireducible] Rat.mul Rat.add Rat.sub Rat.inv

namespace BIGen

/-- Floor of a rational, computed on its reduced numerator/denominator (an
executable form of `Int.floor`; see `qfloor_eq_floor`). -/
def qfloor (q : ℚ) : ℤ := q.num.fdiv q.den

/-- Round a rational to the nearest integer, halves up (an executable form
of Mathlib's `round`; Python's `round` differs from it only on exact
half-integer arguments, which none of the claims hinge on). -/
def roundq (q : ℚ) : ℤ := qfloor (q + 1 / 2)

/-- Python `round(x, 2)` on the rational model: round to 2 decimal places. -/
def round2 (q : ℚ) : ℚ := (roundq (q * 100) : ℚ) / 100

/-- Python `round(x, 1)` on the rational model: round to 1 decimal place. -/
def round1 (q : ℚ) : ℚ := (roundq (q * 10) : ℚ) / 10

/-- A product record (claim-relevant columns of `generate_products`). -/
structure Product where
  product_id : Nat
  price : ℚ
  cost : ℚ
  deriving DecidableEq, Repr, Inhabited

/-- A customer record (claim-relevant columns of `generate_customers`). -/
structure Customer where
  customer_id : Nat
  total_spent : ℚ
  total_orders : Nat
  last_purchase_date : Option Nat
  deriving DecidableEq, Repr, Inhabited

/-- A sale record, columns as built in `generate_sales`. -/
structure Sale where
  sale_id : Nat
  date : Nat
  customer_id : Nat
  product_id : Nat
  quantity : Nat
  unit_price : ℚ
  subtotal : ℚ
  discount_pct : ℚ
  discount_amount : ℚ
  total : ℚ
  cost : ℚ
  profit : ℚ
  deriving DecidableEq, Repr, Inhabited

/-- Errors a run can raise.  `valueError` models numpy raising `ValueError`
(e.g. `np.random.randint(0, 0)` on an empty table); `configurationError` is
the error class the spec's error taxonomy postulates. -/
inductive GenError where
  | configurationError
  | valueError
  deriving DecidableEq, Repr

instance {ε α : Type} [DecidableEq ε] [DecidableEq α] : DecidableEq (Except ε α) :=
  fun x y =>
    match x, y with
    | .ok a, .ok b =>
        if h : a = b then .isTrue (by rw [h]) else .isFalse (by intro hc; cases hc; exact h rfl)
    | .ok _, .error _ => .isFalse (by intro hc; cases hc)
    | .error _, .ok _ => .isFalse (by intro hc; cases hc)
    | .error a, .error b =>
        if h : a = b then .isTrue (by rw [h]) else .isFalse (by intro hc; cases hc; exact h rfl)

/-- The random draws one sale consumes, in the order `generate_sales` makes
them: product index, customer index, quantity choice, the 20% discount coin
(`np.random.random() < 0.2`) and the `np.random.uniform(0, 0.3)` draw. -/
structure SaleDraw where
  productIdx : Nat
  customerIdx : Nat
  qdraw : Nat
  discountOn : Bool
  discountDraw : ℚ
  deriving Repr, Inhabited

/-- The draws one simulated day consumes: the `np.random.poisson(lam=50)`
base count and the per-sale draw stream of that day. -/
structure DayDraw where
  baseSales : Nat
  saleDraws : Nat → SaleDraw

/-- The `seasonal_factor` helper of `generate_sales`: day factor 1.5 when
`date.weekday() >= 4`, month factor 2.5 for December, 2.0 for November,
1.3 for June/July, 1.0 otherwise; result is their product. -/
def seasonal_factor (weekday month : Nat) : ℚ :=
  let day_factor : ℚ := if 4 ≤ weekday then 3 / 2 else 1
  let month_factor : ℚ :=
    if month = 12 then 5 / 2
    else if month = 11 then 2
    else if month = 6 ∨ month = 7 then 13 / 10
    else 1
  day_factor * month_factor

/-- Python `int(base_sales * seasonal_adjustment)`: truncation of a non-negative
float is the floor. -/
def dailyCount (base : Nat) (adj : ℚ) : Nat := (qfloor ((base : ℚ) * adj)).toNat

/-- The discount fraction a sale uses: `np.random.uniform(0, 0.3)` with
probability 0.2, otherwise 0. -/
def discountOf (d : SaleDraw) : ℚ := if d.discountOn then d.discountDraw else 0

/-- The body of the per-sale loop of `generate_sales`: select product and
customer by random index (raising `ValueError` when a table is empty, as
`np.random.randint(0, 0)` does), draw quantity from {1,…,5} and the optional
discount, and build the sale record with its arithmetic. -/
def mkSale (P : List Product) (C : List Customer) (sid date : Nat) (d : SaleDraw) :
    Except GenError Sale :=
  if P.length = 0 ∨ C.length = 0 then .error .valueError
  else
    let product := P.getD (d.productIdx % P.length) default
    let customer := C.getD (d.customerIdx % C.length) default
    let quantity : Nat := 1 + d.qdraw % 5
    let discount := discountOf d
    let subtotal := product.price * quantity
    let discount_amount := subtotal * discount
    let total := subtotal - discount_amount
    let profit := (product.price - product.cost) * quantity * (1 - discount)
    .ok { sale_id := sid
          date := date
          customer_id := customer.customer_id
          product_id := product.product_id
          quantity := quantity
          unit_price := product.price
          subtotal := round2 subtotal
          discount_pct := round1 (discount * 100)
          discount_amount := round2 discount_amount
          total := round2 total
          cost := product.cost * quantity
          profit := round2 profit }

/-- The inner `for _ in range(daily_sales)` loop: emit `k` sales with ids
`sid, sid+1, …`, all dated `date`, consuming the day's sale-draw stream. -/
def genSaleBlock (P : List Product) (C : List Customer) (date : Nat) :
    Nat → Nat → (Nat → SaleDraw) → Except GenError (List Sale)
  | _, 0, _ => .ok []
  | sid, k + 1, f =>
    match mkSale P C sid date (f 0) with
    | .error e => .error e
    | .ok s =>
      match genSaleBlock P C date (sid + 1) k (fun i => f (i + 1)) with
      | .error e => .error e
      | .ok rest => .ok (s :: rest)

/-- The outer `for day in range(self.n_days)` loop: the date is incremented
first, the daily count is `int(poisson_base * seasonal_factor(date))`, then
that many sales are emitted before the next day starts. -/
def genDays (P : List Product) (C : List Customer) (monthOf : Nat → Nat) :
    Nat → Nat → Nat → (Nat → DayDraw) → Except GenError (List Sale)
  | _, _, 0, _ => .ok []
  | date, sid, n + 1, dds =>
    let cnt := dailyCount (dds 0).baseSales
      (seasonal_factor ((date + 1) % 7) (monthOf (date + 1)))
    match genSaleBlock P C (date + 1) sid cnt (dds 0).saleDraws with
    | .error e => .error e
    | .ok block =>
      match genDays P C monthOf (date + 1) (sid + cnt) n (fun i => dds (i + 1)) with
      | .error e => .error e
      | .ok rest => .ok (block ++ rest)

/-- Model of `EcommerceDataGenerator.generate_sales`: start from
`datetime.now() - timedelta(days=n_days)` (`now` is the ambient current day),
run `n_days` day iterations, sale ids starting at 1. -/
def generate_sales (P : List Product) (C : List Customer) (monthOf : Nat → Nat)
    (now n_days : Nat) (dds : Nat → DayDraw) : Except GenError (List Sale) :=
  genDays P C monthOf (now - n_days) 1 n_days dds

/-- The random draws one product consumes in `generate_products`: the
`lognormal(3.5, 0.8) * 10` base-price draw and the `uniform(0.3, 0.7)`
margin draw. -/
structure ProductDraw where
  priceDraw : ℚ
  marginDraw : ℚ
  deriving Repr, Inhabited

/-- The body of the `generate_products` loop: `price = round(base_price, 2)`,
`cost = round(price * (1 - margin), 2)`, ids `1..n`. -/
def mkProduct (i : Nat) (d : ProductDraw) : Product :=
  let price := round2 d.priceDraw
  let cost := round2 (price * (1 - d.marginDraw))
  { product_id := i, price := price, cost := cost }

/-- Model of `EcommerceDataGenerator.generate_products` (claim-relevant columns). -/
def generate_products (n : Nat) (ds : Nat → ProductDraw) : List Product :=
  (List.range n).map fun i => mkProduct (i + 1) (ds i)

/-- Model of `EcommerceDataGenerator.generate_customers`: ids `1..m`, aggregate
fields initialized to `0`, `0.0`, `None`. -/
def generate_customers (m : Nat) : List Customer :=
  (List.range m).map fun i =>
    { customer_id := i + 1, total_spent := 0, total_orders := 0, last_purchase_date := none }

/-- The sales of one customer: `sales.groupby("customer_id")` membership. -/
def customerSales (sales : List Sale) (cid : Nat) : List Sale :=
  sales.filter fun s => s.customer_id == cid

/-- The derived-stats update of `generate_all_data`: per customer with at
least one sale, set `total_spent` to the sum of `total`, `total_orders` to
the sale count and `last_purchase_date` to the max date (the
`groupby(...).agg` plus left merge); customers without sales keep their
prior values. -/
def updateCustomerStats (customers : List Customer) (sales : List Sale) : List Customer :=
  customers.map fun c =>
    let ms := customerSales sales c.customer_id
    if ms.isEmpty then c
    else
      { c with
        total_spent := (ms.map Sale.total).sum
        total_orders := ms.length
        last_purchase_date := (ms.map Sale.date).max? }

/-- The random draws one inventory day consumes: the `poisson(lam=2)` daily
sales, the `np.random.random() < 0.3` restock coin, and the
`np.random.randint(reorder_point, ideal_stock)` restock draw. -/
structure InvDraw where
  dailySalesDraw : Nat
  restockCoin : Bool
  restockDraw : Nat
  deriving Repr, Inhabited

/-- An inventory ledger row, columns as built in `generate_inventory`. -/
structure InventoryRecord where
  date : Nat
  product_id : Nat
  current_stock : Nat
  daily_sales : Nat
  reorder_point : Nat
  ideal_stock : Nat
  stock_status : String
  deriving DecidableEq, Repr, Inhabited

/-- One day of the stock walk in `generate_inventory`:
`current_stock = max(0, current_stock - daily_sales)`, then if
`current_stock <= reorder_point` and the 0.3 coin hits, add
`np.random.randint(reorder_point, ideal_stock)` to the stock.  Returns the
new stock and whether a restock happened. -/
def invStep (reorder ideal stock : Nat) (d : InvDraw) : Nat × Bool :=
  let stock1 := stock - d.dailySalesDraw
  if stock1 ≤ reorder ∧ d.restockCoin then
    (stock1 + (reorder + d.restockDraw % (ideal - reorder)), true)
  else (stock1, false)

/-- The 30-day ledger loop for one product: each day runs `invStep` and
records the post-step stock, with `stock_status` "OK" iff the stock is
strictly above the reorder point. -/
def invDays (pid reorder ideal : Nat) :
    Nat → Nat → Nat → (Nat → InvDraw) → List InventoryRecord
  | _, _, 0, _ => []
  | date, stock, k + 1, ds =>
    let d := ds 0
    let stock1 := (invStep reorder ideal stock d).1
    { date := date
      product_id := pid
      current_stock := stock1
      daily_sales := d.dailySalesDraw
      reorder_point := reorder
      ideal_stock := ideal
      stock_status := if reorder < stock1 then "OK" else "LOW" } ::
      invDays pid reorder ideal (date + 1) stock1 k (fun i => ds (i + 1))

/-- Model of `EcommerceDataGenerator.generate_inventory`: per product, initial stock
`np.random.randint(10, 100)` (modelled `10 + draw % 90`),
`reorder_point = int(stock * 0.3)`, `ideal_stock = int(stock * 1.5)`, then a
30-day walk starting at `now - 30`. -/
def generate_inventory (products : List Product) (now : Nat)
    (c0Of : Nat → Nat) (drawsOf : Nat → Nat → InvDraw) : List InventoryRecord :=
  ((List.range products.length).map fun j =>
    let p := products.getD j default
    let c0 := 10 + c0Of j % 90
    let reorder := 3 * c0 / 10
    let ideal := 3 * c0 / 2
    invDays p.product_id reorder ideal (now - 30) c0 30 (drawsOf j)).flatten

/-- Modelled from the spec: the day-factor as the spec words it — "weekend
days (Fri/Sat per source convention) get a 1.5× factor" — i.e. 1.5 exactly
on Friday (weekday 4) and Saturday (weekday 5), 1.0 otherwise, combined with
the same month factors; used only to compare the spec's claim with the
code's `seasonal_factor`. -/
def specSeasonalFactor (weekday month : Nat) : ℚ :=
  let day_factor : ℚ := if weekday = 4 ∨ weekday = 5 then 3 / 2 else 1
  let month_factor : ℚ :=
    if month = 12 then 5 / 2
    else if month = 11 then 2
    else if month = 6 ∨ month = 7 then 13 / 10
    else 1
  day_factor * month_factor

/-- Length of an ok sales result, 0 on error (for stating concrete runs). -/
def lenOf (e : Except GenError (List Sale)) : Nat :=
  match e with
  | .ok l => l.length
  | .error _ => 0

/-- A concrete product for sample runs. -/
def sampleProduct : Product := { product_id := 1, price := 100, cost := 50 }

/-- A concrete customer for sample runs. -/
def sampleCustomer : Customer :=
  { customer_id := 7, total_spent := 0, total_orders := 0, last_purchase_date := none }

/-- A draw giving quantity 1 and no discount. -/
def plainDraw : SaleDraw :=
  { productIdx := 0, customerIdx := 0, qdraw := 0, discountOn := false,
    discountDraw := 0 }

/-- A day whose Poisson base draw is 1, all sales using `plainDraw`. -/
def oneSaleDay : DayDraw := { baseSales := 1, saleDraws := fun _ => plainDraw }

/-- A calendar in which every day is in March (no seasonal month). -/
def marchOf : Nat → Nat := fun _ => 3

/-- The sale a run on `sampleProduct`/`sampleCustomer` with `plainDraw` at
current day 3 and a 1-day window produces. -/
def sampleSale : Sale :=
  { sale_id := 1, date := 3, customer_id := 7, product_id := 1, quantity := 1,
    unit_price := 100, subtotal := 100, discount_pct := 0, discount_amount := 0,
    total := 100, cost := 50, profit := 50 }

/-- A draw giving quantity 2 and a 12.3456% discount. -/
def c2draw : SaleDraw :=
  { productIdx := 0, customerIdx := 0, qdraw := 1, discountOn := true,
    discountDraw := 123456 / 1000000 }

/-- A day with base draw 1 whose sale uses `c2draw`. -/
def c2day : DayDraw := { baseSales := 1, saleDraws := fun _ => c2draw }

/-- The sale the `c2day` run produces: totals computed from the raw discount
fraction 0.123456, `discount_pct` stored rounded to one decimal. -/
def c2sale : Sale :=
  { sale_id := 1, date := 3, customer_id := 7, product_id := 1, quantity := 2,
    unit_price := 100, subtotal := 200, discount_pct := 123 / 10,
    discount_amount := 2469 / 100, total := 17531 / 100, cost := 100,
    profit := 8765 / 100 }

/-- A day with Poisson base draw 10, all sales using `plainDraw`. -/
def sundayDay : DayDraw := { baseSales := 10, saleDraws := fun _ => plainDraw }

/-- A product draw yielding price 100 and margin 0.5 (so cost 50). -/
def sampleProductDraw : ProductDraw := { priceDraw := 100, marginDraw := 1 / 2 }

/-- An inventory draw: 7 units sold, restock coin hits, restock draw 11. -/
def c9draw : InvDraw := { dailySalesDraw := 7, restockCoin := true, restockDraw := 11 }

/-- A second concrete customer, one that never transacts. -/
def c8customer : Customer :=
  { customer_id := 8, total_spent := 0, total_orders := 0, last_purchase_date := none }

/-- The record `sampleCustomer` becomes after the derived-stats update against `[sampleSale]`. -/
def updatedSampleCustomer : Customer :=
  { customer_id := 7, total_spent := 100, total_orders := 1, last_purchase_date := some 3 }

/-- A rational that is an integer multiple of 1/100 (a 2-decimal value). -/
def Is2Dec (q : ℚ) : Prop := ∃ k : ℤ, q = k / 100

lemma qfloor_eq_floor (q : ℚ) : qfloor q = ⌊q⌋ := by
  rw [qfloor, Int.fdiv_eq_ediv _ (Int.natCast_nonneg q.den), Rat.floor_def]

lemma roundq_eq_round (q : ℚ) : roundq q = round q := by
  rw [roundq, qfloor_eq_floor, round_eq]

lemma round2_eq (q : ℚ) : round2 q = ((round (q * 100) : ℤ) : ℚ) / 100 := by
  rw [round2, roundq_eq_round]

lemma is2Dec_round2 (q : ℚ) : Is2Dec (round2 q) := ⟨roundq (q * 100), rfl⟩

/-- Rounding a 2-decimal value times a natural number to 2 decimals is a
no-op. -/
lemma round2_natMul_of_is2Dec {q : ℚ} (h : Is2Dec q) (n : ℕ) :
    round2 (q * n) = q * n := by
  obtain ⟨k, rfl⟩ := h
  rw [round2_eq]
  have h1 : (k : ℚ) / 100 * n * 100 = ((k * n : ℤ) : ℚ) := by push_cast; ring
  rw [h1, round_intCast]
  push_cast; ring

/-- Every product `generate_products` emits has a 2-decimal cost. -/
lemma generate_products_cost_is2Dec {n : Nat} {ds : Nat → ProductDraw} {p : Product}
    (hp : p ∈ generate_products n ds) : Is2Dec p.cost := by
  simp only [generate_products, List.mem_map] at hp
  obtain ⟨i, _, rfl⟩ := hp
  exact is2Dec_round2 _

/-- Inversion of a successful `mkSale`: the product and customer come from
the input tables and every stored field is determined by the draw's discount
fraction `d` and quantity `q`. -/
lemma mkSale_ok_spec {P : List Product} {C : List Customer} {sid date : Nat}
    {dr : SaleDraw} {s : Sale} (h : mkSale P C sid date dr = .ok s) :
    ∃ p ∈ P, ∃ c ∈ C, ∃ d : ℚ, ∃ q : Nat,
      1 ≤ q ∧ q ≤ 5 ∧
      s.sale_id = sid ∧ s.date = date ∧
      s.product_id = p.product_id ∧ s.customer_id = c.customer_id ∧
      s.quantity = q ∧ s.unit_price = p.price ∧
      s.subtotal = round2 (p.price * q) ∧
      s.discount_pct = round1 (d * 100) ∧
      s.discount_amount = round2 (p.price * q * d) ∧
      s.total = round2 (p.price * q * (1 - d)) ∧
      s.cost = p.cost * q ∧
      s.profit = round2 ((p.price - p.cost) * q * (1 - d)) := by
  simp only [mkSale] at h
  split at h
  · cases h
  · rename_i hne
    have hP : 0 < P.length := Nat.pos_of_ne_zero fun h0 => hne (Or.inl h0)
    have hC : 0 < C.length := Nat.pos_of_ne_zero fun h0 => hne (Or.inr h0)
    injection h with h2
    subst h2
    refine ⟨P.getD (dr.productIdx % P.length) default, ?_,
            C.getD (dr.customerIdx % C.length) default, ?_,
            discountOf dr, 1 + dr.qdraw % 5, ?_, ?_,
            rfl, rfl, rfl, rfl, rfl, rfl, rfl, rfl, rfl, ?_, rfl, rfl⟩
    · rw [List.getD_eq_getElem _ _ (Nat.mod_lt _ hP)]
      exact List.getElem_mem _
    · rw [List.getD_eq_getElem _ _ (Nat.mod_lt _ hC)]
      exact List.getElem_mem _
    · omega
    · have h5 := Nat.mod_lt dr.qdraw (show 0 < 5 by norm_num)
      omega
    · exact congrArg round2 (by ring)

/-- A successful `mkSale` fixes the sale id and date it was called with. -/
lemma mkSale_ok_id_date {P : List Product} {C : List Customer} {sid date : Nat}
    {dr : SaleDraw} {s : Sale} (h : mkSale P C sid date dr = .ok s) :
    s.sale_id = sid ∧ s.date = date := by
  obtain ⟨p, _, c, _, d, q, _, _, h1, h2, _⟩ := mkSale_ok_spec h
  exact ⟨h1, h2⟩

/-- Inversion of the inner per-day loop: `k` sales, consecutive ids from
`sid`, all dated `date`, each produced by `mkSale`. -/
lemma genSaleBlock_ok {P : List Product} {C : List Customer} {date : Nat} :
    ∀ {sid k : Nat} {f : Nat → SaleDraw} {l : List Sale},
      genSaleBlock P C date sid k f = .ok l →
      l.length = k ∧
      l.map Sale.sale_id = List.range' sid k ∧
      ∀ s ∈ l, s.date = date ∧ ∃ dr, mkSale P C s.sale_id date dr = .ok s := by
  intro sid k
  induction k generalizing sid with
  | zero =>
    intro f l h
    simp only [genSaleBlock] at h
    injection h with h2
    subst h2
    simp [List.range']
  | succ k ih =>
    intro f l h
    simp only [genSaleBlock] at h
    cases hm : mkSale P C sid date (f 0) with
    | error e => rw [hm] at h; cases h
    | ok s =>
      rw [hm] at h
      cases hr : genSaleBlock P C date (sid + 1) k (fun i => f (i + 1)) with
      | error e => rw [hr] at h; cases h
      | ok rest =>
        rw [hr] at h
        injection h with h2
        subst h2
        obtain ⟨hlen, hmap, hall⟩ := ih hr
        obtain ⟨hid, hdate⟩ := mkSale_ok_id_date hm
        refine ⟨by simp [hlen], ?_, ?_⟩
        · rw [List.map_cons, hmap, hid, List.range'_succ]
        · intro s' hs'
          rcases List.mem_cons.mp hs' with h1 | h1
          · subst h1
            exact ⟨hdate, ⟨f 0, by rw [hid]; exact hm⟩⟩
          · exact hall s' h1

/-- Inversion of the day loop: sale ids are consecutive from `sid`, every
date lies in `(date, date + n]`, dates are emitted in non-decreasing order,
and every sale was produced by `mkSale` at its own id and date. -/
lemma genDays_ok {P : List Product} {C : List Customer} {monthOf : Nat → Nat} :
    ∀ {date sid n : Nat} {dds : Nat → DayDraw} {sales : List Sale},
      genDays P C monthOf date sid n dds = .ok sales →
      sales.map Sale.sale_id = List.range' sid sales.length ∧
      (∀ s ∈ sales, date < s.date ∧ s.date ≤ date + n) ∧
      List.Pairwise (fun a b => a.date ≤ b.date) sales ∧
      ∀ s ∈ sales, ∃ dr, mkSale P C s.sale_id s.date dr = .ok s := by
  intro date sid n
  induction n generalizing date sid with
  | zero =>
    intro dds sales h
    simp only [genDays] at h
    injection h with h2
    subst h2
    simp [List.range']
  | succ n ih =>
    intro dds sales h
    simp only [genDays] at h
    cases hb : genSaleBlock P C (date + 1) sid
        (dailyCount (dds 0).baseSales
          (seasonal_factor ((date + 1) % 7) (monthOf (date + 1)))) (dds 0).saleDraws with
    | error e => rw [hb] at h; cases h
    | ok block =>
      rw [hb] at h
      cases hr : genDays P C monthOf (date + 1)
          (sid + dailyCount (dds 0).baseSales
            (seasonal_factor ((date + 1) % 7) (monthOf (date + 1)))) n
          (fun i => dds (i + 1)) with
      | error e => rw [hr] at h; cases h
      | ok rest =>
        rw [hr] at h
        injection h with h2
        subst h2
        obtain ⟨hblen, hbmap, hball⟩ := genSaleBlock_ok hb
        obtain ⟨ihmap, ihdate, ihpair, ihprov⟩ := ih hr
        refine ⟨?_, ?_, ?_, ?_⟩
        · rw [List.map_append, hbmap, ihmap, List.length_append, ← hblen]
          have happ := List.range'_append sid block.length rest.length 1
          rw [Nat.one_mul] at happ
          rw [Nat.add_comm block.length rest.length]
          exact happ
        · intro s hs
          rcases List.mem_append.mp hs with h1 | h1
          · have := (hball s h1).1
            omega
          · have := ihdate s h1
            omega
        · rw [List.pairwise_append]
          refine ⟨?_, ihpair, ?_⟩
          · refine List.pairwise_of_forall_mem_list fun a ha b hb2 => ?_
            rw [(hball a ha).1, (hball b hb2).1]
          · intro a ha b hb2
            have h1 := (hball a ha).1
            have h2 := (ihdate b hb2).1
            omega
        · intro s hs
          rcases List.mem_append.mp hs with h1 | h1
          · obtain ⟨hd, dr, hdr⟩ := hball s h1
            exact ⟨dr, by rw [hd]; exact hdr⟩
          · exact ihprov s h1

/-- Per-day sale counts: on the `i`-th simulated day the run emits exactly
`int(base * seasonal_factor)` sales. -/
lemma genDays_count {P : List Product} {C : List Customer} {monthOf : Nat → Nat} :
    ∀ {date sid n : Nat} {dds : Nat → DayDraw} {sales : List Sale},
      genDays P C monthOf date sid n dds = .ok sales →
      ∀ i < n,
        (sales.filter fun s => s.date == date + 1 + i).length =
          dailyCount ((dds i).baseSales)
            (seasonal_factor ((date + 1 + i) % 7) (monthOf (date + 1 + i))) := by
  intro date sid n
  induction n generalizing date sid with
  | zero => intro dds sales _ i hi; omega
  | succ n ih =>
    intro dds sales h i hi
    simp only [genDays] at h
    cases hb : genSaleBlock P C (date + 1) sid
        (dailyCount (dds 0).baseSales
          (seasonal_factor ((date + 1) % 7) (monthOf (date + 1)))) (dds 0).saleDraws with
    | error e => rw [hb] at h; cases h
    | ok block =>
      rw [hb] at h
      cases hr : genDays P C monthOf (date + 1)
          (sid + dailyCount (dds 0).baseSales
            (seasonal_factor ((date + 1) % 7) (monthOf (date + 1)))) n
          (fun i => dds (i + 1)) with
      | error e => rw [hr] at h; cases h
      | ok rest =>
        rw [hr] at h
        injection h with h2
        subst h2
        obtain ⟨hblen, _, hball⟩ := genSaleBlock_ok hb
        obtain ⟨_, ihdate, _, _⟩ := genDays_ok hr
        rw [List.filter_append, List.length_append]
        cases i with
        | zero =>
          have hfb : block.filter (fun s => s.date == date + 1 + 0) = block := by
            rw [List.filter_eq_self]
            intro a ha
            simp [(hball a ha).1]
          have hfr : rest.filter (fun s => s.date == date + 1 + 0) = [] := by
            rw [List.filter_eq_nil_iff]
            intro a ha
            have := (ihdate a ha).1
            simp only [beq_iff_eq]
            omega
          rw [hfb, hfr, hblen]
          simp
        | succ j =>
          have hfb : block.filter (fun s => s.date == date + 1 + (j + 1)) = [] := by
            rw [List.filter_eq_nil_iff]
            intro a ha
            have := (hball a ha).1
            simp only [beq_iff_eq]
            omega
          have heq : (fun s : Sale => s.date == date + 1 + (j + 1)) =
              (fun s : Sale => s.date == date + 1 + 1 + j) := by
            funext s
            have : date + 1 + (j + 1) = date + 1 + 1 + j := by omega
            rw [this]
          have hfr := ih hr j (by omega)
          rw [hfb, heq, hfr]
          have : date + 1 + 1 + j = date + 1 + (j + 1) := by omega
          simp [this]

/-- On an empty product or customer table the run either silently returns
no sales (when every daily count is zero) or stops with `ValueError` at the
first product/customer selection. -/
lemma genDays_empty {P : List Product} {C : List Customer} {monthOf : Nat → Nat}
    (hPC : P = [] ∨ C = []) :
    ∀ {date sid n : Nat} {dds : Nat → DayDraw},
      genDays P C monthOf date sid n dds = .ok [] ∨
      genDays P C monthOf date sid n dds = .error .valueError := by
  have hcond : P.length = 0 ∨ C.length = 0 := by
    rcases hPC with h | h <;> [left; right] <;> simp [h]
  intro date sid n
  induction n generalizing date sid with
  | zero => intro dds; left; rfl
  | succ n ih =>
    intro dds
    simp only [genDays]
    cases hc : dailyCount (dds 0).baseSales
        (seasonal_factor ((date + 1) % 7) (monthOf (date + 1))) with
    | zero =>
      have hb : genSaleBlock P C (date + 1) sid 0 (dds 0).saleDraws = .ok [] := rfl
      rw [hb]
      rcases @ih (date + 1) (sid + 0) (fun i => dds (i + 1)) with h | h <;> rw [h]
      · left; rfl
      · right; rfl
    | succ k =>
      have hb : genSaleBlock P C (date + 1) sid (k + 1) (dds 0).saleDraws =
          .error .valueError := by
        simp only [genSaleBlock, mkSale]
        rw [if_pos hcond]
      rw [hb]
      right
      rfl

/-- C1 (counterexample): two runs with identical seed-derived draw streams
and identical configuration but a different ambient current day produce
different Sale tables — the generator depends on `datetime.now()`, so it is
not a pure function of (seed, configuration) alone. -/
theorem c1_counterexample :
    generate_sales [sampleProduct] [sampleCustomer] marchOf 1 1 (fun _ => oneSaleDay) ≠
      generate_sales [sampleProduct] [sampleCustomer] marchOf 2 1 (fun _ => oneSaleDay) := by
  decide

/-- C1 (amended): the generator is deterministic in the seed-derived draw
streams together with the configuration and the current day: two runs with
equal draws and equal `now` produce equal Sale tables. -/
theorem c1_deterministic (P : List Product) (C : List Customer) (monthOf : Nat → Nat)
    (now n_days : Nat) (dds1 dds2 : Nat → DayDraw) (h : ∀ i, dds1 i = dds2 i) :
    generate_sales P C monthOf now n_days dds1 =
      generate_sales P C monthOf now n_days dds2 := by
  have h2 : dds1 = dds2 := funext h
  rw [h2]

/-- C1 (witness): the determinism theorem at a concrete run. -/
theorem c1_witness :
    generate_sales [sampleProduct] [sampleCustomer] marchOf 3 1 (fun _ => oneSaleDay) =
      generate_sales [sampleProduct] [sampleCustomer] marchOf 3 1 (fun _ => oneSaleDay) :=
  c1_deterministic _ _ _ _ _ _ _ (fun _ => rfl)

/-- C2 (counterexample): in the run on `c2day` (raw discount fraction
0.123456) the emitted sale violates both stored-field formulas of the
claim: `total ≠ round2(unit_price·quantity·(1-discount_pct/100))` (the code
computes with the unrounded fraction, the stored `discount_pct` is rounded
to one decimal) and `profit ≠ round2((unit_price-cost)·quantity·(1-discount_pct/100))`
(the stored `cost` is the line total `unit_cost·quantity`, not the unit cost). -/
theorem c2_counterexample :
    generate_sales [sampleProduct] [sampleCustomer] marchOf 3 1 (fun _ => c2day) =
        .ok [c2sale] ∧
      c2sale.total ≠
        round2 (c2sale.unit_price * c2sale.quantity * (1 - c2sale.discount_pct / 100)) ∧
      c2sale.profit ≠
        round2 ((c2sale.unit_price - c2sale.cost) * c2sale.quantity *
          (1 - c2sale.discount_pct / 100)) := by
  decide

/-- C2 (amended): for every emitted Sale there is a raw discount fraction
`d` (the uniform draw, of which the stored `discount_pct` is the
one-decimal rounding of `100·d`) and a per-unit cost `c` (of which the
stored `cost` field is the line total `c·quantity`) such that
`total = round2(unit_price·quantity·(1-d))` and
`profit = round2((unit_price-c)·quantity·(1-d))`. -/
theorem c2_arithmetic (P : List Product) (C : List Customer) (monthOf : Nat → Nat)
    (now n_days : Nat) (dds : Nat → DayDraw) (sales : List Sale)
    (h : generate_sales P C monthOf now n_days dds = .ok sales) :
    ∀ s ∈ sales, ∃ d : ℚ,
      s.discount_pct = round1 (d * 100) ∧
      s.total = round2 (s.unit_price * s.quantity * (1 - d)) ∧
      ∃ c : ℚ, s.cost = c * s.quantity ∧
        s.profit = round2 ((s.unit_price - c) * s.quantity * (1 - d)) := by
  intro s hs
  simp only [generate_sales] at h
  obtain ⟨_, _, _, hprov⟩ := genDays_ok h
  obtain ⟨dr, hdr⟩ := hprov s hs
  obtain ⟨p, hp, c, hc, d, q, hq1, hq5, hsid, hdate, hpid, hcid, hqty, hup, hsub,
    hpct, hda, htot, hcost, hprof⟩ := mkSale_ok_spec hdr
  refine ⟨d, hpct, ?_, p.cost, ?_, ?_⟩
  · rw [hup, hqty]; exact htot
  · rw [hqty]; exact hcost
  · rw [hup, hqty]; exact hprof

/-- C2 (witness): the amended arithmetic theorem at the concrete
no-discount run. -/
theorem c2_witness :
    ∃ d : ℚ,
      sampleSale.discount_pct = round1 (d * 100) ∧
      sampleSale.total = round2 (sampleSale.unit_price * sampleSale.quantity * (1 - d)) ∧
      ∃ c : ℚ, sampleSale.cost = c * sampleSale.quantity ∧
        sampleSale.profit =
          round2 ((sampleSale.unit_price - c) * sampleSale.quantity * (1 - d)) :=
  c2_arithmetic [sampleProduct] [sampleCustomer] marchOf 3 1 (fun _ => oneSaleDay)
    [sampleSale] (by decide) sampleSale (List.mem_singleton.mpr rfl)

/-- C3: after the derived-stats update, every customer's `total_orders` is
the count of its sales, `total_spent` the sum of their totals,
`last_purchase_date` the max of their dates, and a customer with no sales
keeps its initialized defaults (0, 0, none). -/
theorem c3_aggregate_correct (customers : List Customer) (sales : List Sale)
    (hinit : ∀ c ∈ customers,
      c.total_spent = 0 ∧ c.total_orders = 0 ∧ c.last_purchase_date = none) :
    ∀ c' ∈ updateCustomerStats customers sales,
      c'.total_orders = (customerSales sales c'.customer_id).length ∧
      c'.total_spent = ((customerSales sales c'.customer_id).map Sale.total).sum ∧
      c'.last_purchase_date = ((customerSales sales c'.customer_id).map Sale.date).max? ∧
      (customerSales sales c'.customer_id = [] →
        c'.total_spent = 0 ∧ c'.total_orders = 0 ∧ c'.last_purchase_date = none) := by
  intro c' hc'
  simp only [updateCustomerStats, List.mem_map] at hc'
  obtain ⟨c, hcmem, hfc⟩ := hc'
  by_cases hms : (customerSales sales c.customer_id).isEmpty
  · have hnil : customerSales sales c.customer_id = [] := List.isEmpty_iff.mp hms
    have hc'eq : c' = c := by rw [← hfc]; simp [hms]
    obtain ⟨h1, h2, h3⟩ := hinit c hcmem
    rw [hc'eq]
    refine ⟨?_, ?_, ?_, fun _ => ⟨h1, h2, h3⟩⟩ <;> simp [hnil, h1, h2, h3]
  · have hc'eq : c' =
        { c with
          total_spent := ((customerSales sales c.customer_id).map Sale.total).sum
          total_orders := (customerSales sales c.customer_id).length
          last_purchase_date := ((customerSales sales c.customer_id).map Sale.date).max? } := by
      rw [← hfc]; simp [hms]
    rw [hc'eq]
    exact ⟨rfl, rfl, rfl, fun hnil => absurd (by rw [hnil]; rfl) hms⟩

/-- C3 (witness): the aggregate theorem at a concrete update of two
customers against one sale. -/
theorem c3_witness :
    updatedSampleCustomer.total_orders =
        (customerSales [sampleSale] updatedSampleCustomer.customer_id).length ∧
      updatedSampleCustomer.total_spent =
        ((customerSales [sampleSale] updatedSampleCustomer.customer_id).map Sale.total).sum ∧
      updatedSampleCustomer.last_purchase_date =
        ((customerSales [sampleSale] updatedSampleCustomer.customer_id).map Sale.date).max? ∧
      (customerSales [sampleSale] updatedSampleCustomer.customer_id = [] →
        updatedSampleCustomer.total_spent = 0 ∧ updatedSampleCustomer.total_orders = 0 ∧
          updatedSampleCustomer.last_purchase_date = none) :=
  c3_aggregate_correct [sampleCustomer, c8customer] [sampleSale] (by decide)
    updatedSampleCustomer (by decide)

/-- C4: every emitted Sale's `product_id` is the id of some row of the
products table and its `customer_id` the id of some row of the customers
table. -/
theorem c4_referential_integrity (P : List Product) (C : List Customer)
    (monthOf : Nat → Nat) (now n_days : Nat) (dds : Nat → DayDraw) (sales : List Sale)
    (h : generate_sales P C monthOf now n_days dds = .ok sales) :
    ∀ s ∈ sales, s.product_id ∈ P.map Product.product_id ∧
      s.customer_id ∈ C.map Customer.customer_id := by
  intro s hs
  simp only [generate_sales] at h
  obtain ⟨_, _, _, hprov⟩ := genDays_ok h
  obtain ⟨dr, hdr⟩ := hprov s hs
  obtain ⟨p, hp, c, hc, d, q, hq1, hq5, hsid, hdate, hpid, hcid, hqty, hup, hsub,
    hpct, hda, htot, hcost, hprof⟩ := mkSale_ok_spec hdr
  constructor
  · rw [hpid]; exact List.mem_map_of_mem Product.product_id hp
  · rw [hcid]; exact List.mem_map_of_mem Customer.customer_id hc

/-- C4 (witness): referential integrity at the concrete sample run. -/
theorem c4_witness :
    sampleSale.product_id ∈ [sampleProduct].map Product.product_id ∧
      sampleSale.customer_id ∈ [sampleCustomer].map Customer.customer_id :=
  c4_referential_integrity [sampleProduct] [sampleCustomer] marchOf 3 1
    (fun _ => oneSaleDay) [sampleSale] (by decide) sampleSale (List.mem_singleton.mpr rfl)

/-- C5: the emitted sale ids, in emission order, are exactly
`1, 2, …, len(sales)`: one global strictly increasing counter with no gaps
and no repeats. -/
theorem c5_sale_ids (P : List Product) (C : List Customer) (monthOf : Nat → Nat)
    (now n_days : Nat) (dds : Nat → DayDraw) (sales : List Sale)
    (h : generate_sales P C monthOf now n_days dds = .ok sales) :
    sales.map Sale.sale_id = List.range' 1 sales.length := by
  simp only [generate_sales] at h
  exact (genDays_ok h).1

/-- C5 (witness): the sale-id theorem at the concrete sample run. -/
theorem c5_witness :
    List.map Sale.sale_id [sampleSale] = List.range' 1 [sampleSale].length :=
  c5_sale_ids [sampleProduct] [sampleCustomer] marchOf 3 1 (fun _ => oneSaleDay)
    [sampleSale] (by decide)

/-- C6 (counterexample): on a Sunday (`weekday() = 6`, so `weekday() >= 4`)
in a non-seasonal month the run emits `floor(10 · 1.5) = 15` sales, while
the claim's day-factor (1.5 only on Friday/Saturday) predicts
`floor(10 · 1.0) = 10`. -/
theorem c6_counterexample :
    lenOf (generate_sales [sampleProduct] [sampleCustomer] marchOf 6 1
        (fun _ => sundayDay)) = 15 ∧
      dailyCount sundayDay.baseSales (specSeasonalFactor 6 (marchOf 6)) = 10 ∧
      (15 : Nat) ≠ 10 := by
  decide

/-- C6 (amended): each day's emitted sale count is
`floor(base · seasonal_factor)`, where the day-factor is 1.5 exactly when
`weekday() >= 4` (Friday, Saturday or Sunday) and the month factors are
2.5/2.0/1.3/1.0 as claimed. -/
theorem c6_daily_count (P : List Product) (C : List Customer) (monthOf : Nat → Nat)
    (now n_days : Nat) (dds : Nat → DayDraw) (sales : List Sale) (i : Nat)
    (h : generate_sales P C monthOf now n_days dds = .ok sales) (hi : i < n_days) :
    (sales.filter fun s => s.date == now - n_days + 1 + i).length =
      dailyCount ((dds i).baseSales)
        (seasonal_factor ((now - n_days + 1 + i) % 7) (monthOf (now - n_days + 1 + i))) := by
  simp only [generate_sales] at h
  exact genDays_count h i hi

/-- C6 (witness): the daily-count theorem at the concrete 1-day run. -/
theorem c6_witness :
    ([sampleSale].filter fun s => s.date == 3 - 1 + 1 + 0).length =
      dailyCount oneSaleDay.baseSales
        (seasonal_factor ((3 - 1 + 1 + 0) % 7) (marchOf (3 - 1 + 1 + 0))) :=
  c6_daily_count [sampleProduct] [sampleCustomer] marchOf 3 1 (fun _ => oneSaleDay)
    [sampleSale] 0 (by decide) (by decide)

/-- C7 (counterexample): with zero products configured the run stops with a
`ValueError` from the product selection (after the day-level draws), not
with a `ConfigurationError` — no such check or error class exists in the
code. -/
theorem c7_counterexample :
    generate_sales [] [sampleCustomer] marchOf 3 1 (fun _ => oneSaleDay) =
        .error .valueError ∧
      (Except.error .valueError : Except GenError (List Sale)) ≠
        .error .configurationError := by
  decide

/-- C7 (amended): with zero products or zero customers the generator never
raises a `ConfigurationError`: it either returns an empty sales table
silently (when every daily count is zero) or fails with `ValueError` at the
first per-sale product/customer selection. -/
theorem c7_empty_inputs (P : List Product) (C : List Customer) (monthOf : Nat → Nat)
    (now n_days : Nat) (dds : Nat → DayDraw) (h : P = [] ∨ C = []) :
    generate_sales P C monthOf now n_days dds = .ok [] ∨
      generate_sales P C monthOf now n_days dds = .error .valueError := by
  simp only [generate_sales]
  exact genDays_empty h

/-- C7 (witness): the empty-input theorem at a concrete empty-products run. -/
theorem c7_witness :
    generate_sales [] [sampleCustomer] marchOf 3 1 (fun _ => oneSaleDay) = .ok [] ∨
      generate_sales [] [sampleCustomer] marchOf 3 1 (fun _ => oneSaleDay) =
        .error .valueError :=
  c7_empty_inputs [] [sampleCustomer] marchOf 3 1 (fun _ => oneSaleDay) (Or.inl rfl)

/-- C8: in a run over a catalog built by `generate_products`, every stored
monetary field is the 2-decimal rounding of its formula value over the
product's price, per-unit cost and the raw discount fraction `d`; in
particular the stored `cost` equals `round2(unit_cost · quantity)` (the
code stores the unrounded product, which is already a 2-decimal value
because catalog costs are rounded to 2 decimals). -/
theorem c8_monetary_rounding (n : Nat) (ds : Nat → ProductDraw) (C : List Customer)
    (monthOf : Nat → Nat) (now n_days : Nat) (dds : Nat → DayDraw) (sales : List Sale)
    (h : generate_sales (generate_products n ds) C monthOf now n_days dds = .ok sales) :
    ∀ s ∈ sales, ∃ p ∈ generate_products n ds, ∃ d : ℚ,
      s.unit_price = p.price ∧
      s.subtotal = round2 (p.price * s.quantity) ∧
      s.discount_pct = round1 (d * 100) ∧
      s.discount_amount = round2 (p.price * s.quantity * d) ∧
      s.total = round2 (p.price * s.quantity * (1 - d)) ∧
      s.cost = round2 (p.cost * s.quantity) ∧
      s.profit = round2 ((p.price - p.cost) * s.quantity * (1 - d)) := by
  intro s hs
  simp only [generate_sales] at h
  obtain ⟨_, _, _, hprov⟩ := genDays_ok h
  obtain ⟨dr, hdr⟩ := hprov s hs
  obtain ⟨p, hp, c, hc, d, q, hq1, hq5, hsid, hdate, hpid, hcid, hqty, hup, hsub,
    hpct, hda, htot, hcost, hprof⟩ := mkSale_ok_spec hdr
  refine ⟨p, hp, d, hup, ?_, hpct, ?_, ?_, ?_, ?_⟩
  · rw [hqty]; exact hsub
  · rw [hqty]; exact hda
  · rw [hqty]; exact htot
  · rw [hqty, round2_natMul_of_is2Dec (generate_products_cost_is2Dec hp) q]
    exact hcost
  · rw [hqty]; exact hprof

/-- C8 (witness): the rounding theorem at a concrete run over a 1-product
generated catalog. -/
theorem c8_witness :
    ∃ p ∈ generate_products 1 (fun _ => sampleProductDraw), ∃ d : ℚ,
      sampleSale.unit_price = p.price ∧
      sampleSale.subtotal = round2 (p.price * sampleSale.quantity) ∧
      sampleSale.discount_pct = round1 (d * 100) ∧
      sampleSale.discount_amount = round2 (p.price * sampleSale.quantity * d) ∧
      sampleSale.total = round2 (p.price * sampleSale.quantity * (1 - d)) ∧
      sampleSale.cost = round2 (p.cost * sampleSale.quantity) ∧
      sampleSale.profit = round2 ((p.price - p.cost) * sampleSale.quantity * (1 - d)) :=
  c8_monetary_rounding 1 (fun _ => sampleProductDraw) [sampleCustomer] marchOf 3 1
    (fun _ => oneSaleDay) [sampleSale] (by decide) sampleSale (List.mem_singleton.mpr rfl)

/-- C9 (counterexample): with initial stock 10 (reorder point 3, ideal
stock 15), daily sales 7 and restock draw 11, a restock occurs on day one
and the stock recorded immediately after it is 17 — above `ideal_stock`:
the code adds the drawn amount instead of raising the stock to it. -/
theorem c9_counterexample :
    (invStep 3 15 10 c9draw).2 = true ∧
      ((generate_inventory [sampleProduct] 30 (fun _ => 0)
          (fun _ _ => c9draw)).headD default).current_stock = 17 ∧
      ((generate_inventory [sampleProduct] 30 (fun _ => 0)
          (fun _ _ => c9draw)).headD default).ideal_stock = 15 ∧
      ¬(17 ≤ 15) := by
  decide

/-- C9 (amended): a restock adds an amount drawn from
`[reorder_point, ideal_stock)` to the post-sales stock, so the stock
recorded immediately after a restock is at least `reorder_point` and below
`reorder_point + ideal_stock` — it may exceed `ideal_stock`. -/
theorem c9_restock_bounds (reorder ideal stock : Nat) (d : InvDraw)
    (hri : reorder < ideal) (h : (invStep reorder ideal stock d).2 = true) :
    reorder ≤ (invStep reorder ideal stock d).1 ∧
      (invStep reorder ideal stock d).1 < reorder + ideal := by
  by_cases hcond : stock - d.dailySalesDraw ≤ reorder ∧ d.restockCoin = true
  · have heq : invStep reorder ideal stock d =
        (stock - d.dailySalesDraw + (reorder + d.restockDraw % (ideal - reorder)), true) := by
      simp [invStep, hcond]
    rw [heq]
    dsimp only
    have hmod := Nat.mod_lt d.restockDraw (show 0 < ideal - reorder by omega)
    omega
  · have heq : invStep reorder ideal stock d = (stock - d.dailySalesDraw, false) := by
      simp only [invStep]
      rw [if_neg hcond]
    rw [heq] at h
    simp at h

/-- C9 (witness): the restock-bounds theorem at the concrete draw. -/
theorem c9_witness :
    3 < 15 ∧ (invStep 3 15 10 c9draw).2 = true ∧
      (3 ≤ (invStep 3 15 10 c9draw).1 ∧ (invStep 3 15 10 c9draw).1 < 3 + 15) :=
  ⟨by decide, by decide, c9_restock_bounds 3 15 10 c9draw (by decide) (by decide)⟩

/-- C10: sales are emitted day by day, so the date column is non-decreasing
in emission order (hence sale-id order coincides with chronological order),
and every date lies in the window of exactly `n_days` consecutive days
following `now - n_days`. -/
theorem c10_chronological (P : List Product) (C : List Customer) (monthOf : Nat → Nat)
    (now n_days : Nat) (dds : Nat → DayDraw) (sales : List Sale)
    (h : generate_sales P C monthOf now n_days dds = .ok sales) :
    List.Pairwise (fun a b => a.date ≤ b.date) sales ∧
      ∀ s ∈ sales, now - n_days < s.date ∧ s.date ≤ now - n_days + n_days := by
  simp only [generate_sales] at h
  exact ⟨(genDays_ok h).2.2.1, (genDays_ok h).2.1⟩

/-- C10 (witness): the chronology theorem at the concrete sample run. -/
theorem c10_witness :
    List.Pairwise (fun a b => a.date ≤ b.date) [sampleSale] ∧
      ∀ s ∈ [sampleSale], 3 - 1 < s.date ∧ s.date ≤ 3 - 1 + 1 :=
  c10_chronological [sampleProduct] [sampleCustomer] marchOf 3 1 (fun _ => oneSaleDay)
    [sampleSale] (by decide)

end BIGen
